import Mathlib

/-!
Verification development for the snake-animation mini-game
(`components/p5-animation.tsx`).

The per-frame game logic is embedded shallowly: canvas coordinates and
millisecond clocks become rationals, the p5 random draws become explicit
parameters, and the mutable sketch variables become fields of an explicit
`GameState` record.  Drawing-only state (flow-line offset, graphics
buffers, debug text) has no effect on the game fields and is omitted.
-/

namespace SnakeGame

/-- A follower segment of the chain: position plus the per-segment easing
coefficient (one entry of the `segments` array in the sketch). -/
structure Segment where
  x : ℚ
  y : ℚ
  easeFactor : ℚ
deriving DecidableEq

/-- A falling obstacle (the `Obstacle` interface of the sketch). -/
structure Obstacle where
  x : ℚ
  y : ℚ
  speed : ℚ
  size : ℚ
  drift : ℚ
deriving DecidableEq

/-- The HUD snapshot pushed to the page shell (the `HudState` interface). -/
structure HudState where
  gameOver : Bool
  score : ℚ
  bestScore : ℚ
deriving DecidableEq

/-- Content of the session-storage cell holding the best score: absent, an
arbitrary raw string found at startup, or a number written by
`writeSessionBest`. -/
inductive StoredCell where
  | absent
  | raw (s : String)
  | num (q : ℚ)
deriving DecidableEq

/-- Session storage: either usable and holding a cell, or throwing on every
access (the `catch` paths of `readSessionBest` / `writeSessionBest`). -/
inductive StorageState where
  | unavailable
  | available (cell : StoredCell)
deriving DecidableEq

/-- `readSessionBest` of the source.  `parse` stands for the JavaScript
`Number` conversion on strings: `none` models a non-finite result (`NaN`).
An empty raw string is falsy in `raw ? Number(raw) : 0`, hence yields 0; a
cell written by `writeSessionBest` reads back as the written number. -/
def readSessionBest (parse : String → Option ℚ) : StorageState → ℚ
  | .unavailable => 0
  | .available .absent => 0
  | .available (.raw s) => if s.isEmpty then 0 else (parse s).getD 0
  | .available (.num q) => q

/-- `writeSessionBest` of the source: storing the value, or throwing and
leaving storage as it was (the exception is caught and only logged). -/
def writeSessionBest (value : ℚ) : StorageState → StorageState
  | .unavailable => .unavailable
  | .available _ => .available (.num value)

/-- `normalizeScore` of the source: `Number(value.toFixed(1))`, i.e. round
to one decimal place.  The `Number.isFinite` guard is vacuous over ℚ; for
the nonnegative scores of this game, `toFixed` rounding agrees with
Mathlib's `round`. -/
def normalizeScore (v : ℚ) : ℚ := (round (10 * v) : ℤ) / 10

/-- `initialBestScore` of the source: the single startup read of the
persisted best score, normalized. -/
def initialBestScore (parse : String → Option ℚ) (st : StorageState) : ℚ :=
  normalizeScore (readSessionBest parse st)

/-- `numSegments` of the source. -/
def numSegments : ℕ := 5

/-- `initSegments`: all segments at the canvas center, easing factor
`0.16 - i * 0.004`. -/
def initSegments (canvasWidth canvasHeight : ℚ) : List Segment :=
  (List.range numSegments).map fun (i : ℕ) =>
    { x := canvasWidth / 2, y := canvasHeight / 2,
      easeFactor := 16 / 100 - (i : ℚ) * (4 / 1000) }

/-- One exponential-easing step of a segment toward the point `(tx, ty)`:
`pos += (target − pos) × easeFactor`. -/
def easeToward (tx ty : ℚ) (c : Segment) : Segment :=
  { c with x := c.x + (tx - c.x) * c.easeFactor,
           y := c.y + (ty - c.y) * c.easeFactor }

/-- The follower loop of `p.draw` (`for i = 1; i < segments.length; ...`):
the array is mutated in place, so each segment eases toward the value its
predecessor already received earlier in the same frame. -/
def chainFollow (prev : Segment) : List Segment → List Segment
  | [] => []
  | c :: rest =>
    easeToward prev.x prev.y c :: chainFollow (easeToward prev.x prev.y c) rest

/-- The per-frame chain update of `p.draw`: segment 0 eases toward the
target, then the in-place follower loop runs over the tail. -/
def updateSegments (tx ty : ℚ) : List Segment → List Segment
  | [] => []
  | s0 :: rest => easeToward tx ty s0 :: chainFollow (easeToward tx ty s0) rest

/-- Modelled from the spec: the chain update as §4.2 words it, each
subsequent segment easing toward its predecessor's position *before* this
frame's update.  Kept only to compare against `updateSegments`. -/
def chainFollowPrev : Segment → List Segment → List Segment
  | _, [] => []
  | prevOld, c :: rest => easeToward prevOld.x prevOld.y c :: chainFollowPrev c rest

/-- Modelled from the spec: head eases toward the target, the tail follows
previous positions (see `chainFollowPrev`). -/
def updateSegmentsSpecPrev (tx ty : ℚ) : List Segment → List Segment
  | [] => []
  | s0 :: rest => easeToward tx ty s0 :: chainFollowPrev s0 rest

/-- The random draws consumed by one `spawnObstacle` call. -/
structure SpawnRand where
  size : ℚ
  x : ℚ
  speed : ℚ
  drift : ℚ
deriving DecidableEq

/-- `spawnObstacle`: no-op when the obstacle image failed to load, else
push a fresh obstacle spawned just above the top edge. -/
def spawnObstacle (imageLoaded : Bool) (r : SpawnRand) (obs : List Obstacle) :
    List Obstacle :=
  if imageLoaded then
    obs ++ [{ x := r.x, y := -r.size, speed := r.speed, size := r.size, drift := r.drift }]
  else obs

/-- The collision test of `updateObstacles`:
`p.dist(head.x, head.y, obstacle.x, obstacle.y) < headRadius + obstacle.size * 0.45`
with `headRadius = 80`, encoded by comparing squares (equivalent to the
Euclidean form whenever the radius is nonnegative; see the C4 theorem). -/
def collides (hd : Segment) (o : Obstacle) : Bool :=
  decide ((hd.x - o.x) ^ 2 + (hd.y - o.y) ^ 2 < (80 + o.size * (45 / 100)) ^ 2)

/-- The off-screen removal test of `updateObstacles`:
`obstacle.y - obstacle.size / 2 > p.height + 50`. -/
def pastBottom (height : ℚ) (o : Obstacle) : Bool :=
  decide (o.y - o.size / 2 > height + 50)

/-- The per-frame obstacle motion: `y += speed; x += drift`. -/
def moveObstacle (o : Obstacle) : Obstacle :=
  { o with y := o.y + o.speed, x := o.x + o.drift }

/-- The mutable state threaded through the index loop of
`updateObstacles`: the kept obstacles of the already-processed suffix plus
the sketch variables the loop may write. -/
structure LoopSt where
  kept : List Obstacle
  gameOver : Bool
  score : ℚ
  bestScore : ℚ
  storage : StorageState
  hud : HudState
deriving DecidableEq

/-- The guard `!gameOver && head` together with the distance test: the
collision test runs only when the chain has a head segment. -/
def hitTest (head : Option Segment) (o : Obstacle) : Bool :=
  match head with
  | some hd => collides hd o
  | none => false

/-- One iteration of the obstacle loop (one index `i`): move unless game
over, test the collision against the chain head, on a hit freeze the round
and fold the rounded score into the best score, else drop the obstacle
once past the bottom. -/
def obsStep (head : Option Segment) (height : ℚ) (o : Obstacle) (st : LoopSt) :
    LoopSt :=
  if st.gameOver then { st with kept := o :: st.kept }
  else
    let om := moveObstacle o
    if hitTest head om then
      let rounded := normalizeScore st.score
      let best2 := if rounded > st.bestScore then rounded else st.bestScore
      let storage2 :=
        if rounded > st.bestScore then writeSessionBest best2 st.storage else st.storage
      { kept := om :: st.kept, gameOver := true, score := rounded,
        bestScore := best2, storage := storage2,
        hud := { gameOver := true, score := rounded,
                 bestScore := normalizeScore best2 } }
    else if pastBottom height om then st
    else { st with kept := om :: st.kept }

/-- The obstacle loop, iterating from the last index down to 0: the last
element of the list is processed first, so the recursion folds the suffix
before stepping the current obstacle. -/
def obstacleLoop (head : Option Segment) (height : ℚ) :
    List Obstacle → LoopSt → LoopSt
  | [], st => st
  | o :: rest, st => obsStep head height o (obstacleLoop head height rest st)

/-- All mutable sketch variables that the game logic reads or writes. -/
structure GameState where
  segments : List Segment
  obstacles : List Obstacle
  obstacleSpawnTimer : ℚ
  nextObstacleDelay : ℚ
  score : ℚ
  bestScore : ℚ
  roundStartTime : ℚ
  lastHudScore : ℚ
  gameOver : Bool
  introOverlayActive : Bool
  storage : StorageState
  hud : HudState
deriving DecidableEq

/-- The spawn block at the top of `updateObstacles`: while not game over,
accumulate `deltaTime`; once the timer reaches the delay, spawn and redraw
a fresh random delay. -/
def spawnPhase (dt freshDelay : ℚ) (r : SpawnRand) (imageLoaded : Bool)
    (s : GameState) : GameState :=
  if s.gameOver then s
  else
    let t := s.obstacleSpawnTimer + dt
    if t ≥ s.nextObstacleDelay then
      { s with obstacles := spawnObstacle imageLoaded r s.obstacles,
               obstacleSpawnTimer := 0, nextObstacleDelay := freshDelay }
    else { s with obstacleSpawnTimer := t }

/-- The loop state at index `obstacles.length - 1`, before any iteration:
nothing kept yet, the sketch variables as they stand after the spawn
block. -/
def loopInit (s : GameState) : LoopSt :=
  { kept := [], gameOver := s.gameOver, score := s.score,
    bestScore := s.bestScore, storage := s.storage, hud := s.hud }

/-- Writing the loop variables back into the sketch state once the index
loop has finished. -/
def applyLoop (res : LoopSt) (s : GameState) : GameState :=
  { s with obstacles := res.kept, gameOver := res.gameOver,
           score := res.score, bestScore := res.bestScore,
           storage := res.storage, hud := res.hud }

/-- `updateObstacles` of the source: early return when the obstacle image
is missing or the intro overlay is active; otherwise the spawn block
followed by the index loop over the obstacle array. -/
def updateObstacles (dt : ℚ) (imageLoaded : Bool) (freshDelay : ℚ)
    (r : SpawnRand) (height : ℚ) (s : GameState) : GameState :=
  if !imageLoaded || s.introOverlayActive then s
  else
    applyLoop
      (obstacleLoop (spawnPhase dt freshDelay r imageLoaded s).segments.head?
        height (spawnPhase dt freshDelay r imageLoaded s).obstacles
        (loopInit (spawnPhase dt freshDelay r imageLoaded s)))
      (spawnPhase dt freshDelay r imageLoaded s)

/-- `resetGame` of the source (`now` is `p.millis()`, `freshDelay` the
`p.random(900, 1600)` draw): clears the round state, re-homes the chain,
and pushes a fresh HUD snapshot.  `bestScore` and the storage are left
untouched. -/
def resetGame (canvasWidth canvasHeight freshDelay now : ℚ) (s : GameState) :
    GameState :=
  { s with obstacles := [], obstacleSpawnTimer := 0,
           nextObstacleDelay := freshDelay, score := 0, roundStartTime := now,
           lastHudScore := -1, gameOver := false,
           segments := initSegments canvasWidth canvasHeight,
           hud := { gameOver := false, score := 0,
                    bestScore := normalizeScore s.bestScore } }

/-- `setIntroOverlayState` of the source: entering the intro clears the
obstacles; leaving it resets the spawn timer and draws a fresh delay. -/
def setIntroOverlayState (value : Bool) (freshDelay : ℚ) (s : GameState) :
    GameState :=
  if value then { s with introOverlayActive := true, obstacles := [] }
  else { s with introOverlayActive := false, obstacleSpawnTimer := 0,
                nextObstacleDelay := freshDelay }

/-- The score block of `p.draw` (run only while not game over): the score
is the elapsed seconds since round start, and the HUD is refreshed when the
rounded value changed. -/
def scoreUpdate (now : ℚ) (s : GameState) : GameState :=
  let elapsed := max 0 ((now - s.roundStartTime) / 1000)
  let rounded := normalizeScore elapsed
  if rounded ≠ s.lastHudScore then
    { s with score := elapsed, lastHudScore := rounded,
             hud := { s.hud with score := rounded } }
  else { s with score := elapsed }

/-- The state effect of one `p.draw` frame: score block, obstacle update,
then (with a nonempty chain and not game over) the follower-chain update
toward the input target `(tx, ty)`. -/
def drawFrame (now dt : ℚ) (imageLoaded : Bool) (freshDelay : ℚ)
    (r : SpawnRand) (height tx ty : ℚ) (s : GameState) : GameState :=
  let s1 := if s.gameOver then s else scoreUpdate now s
  let s2 := updateObstacles dt imageLoaded freshDelay r height s1
  if s2.segments.isEmpty then s2
  else if s2.gameOver then s2
  else { s2 with segments := updateSegments tx ty s2.segments }

/-- Probe values used to evaluate the embedded operations at concrete
inputs: a head segment sitting at the origin and an obstacle overlapping
it. -/
def probeSeg : Segment := { x := 0, y := 0, easeFactor := 16 / 100 }

/-- Probe obstacle at the origin, well inside the head radius. -/
def probeObstacle : Obstacle := { x := 0, y := 0, speed := 0, size := 40, drift := 0 }

/-- Probe mid-round state: playing, one obstacle overlapping the head,
storage unavailable. -/
def probeState : GameState :=
  { segments := [probeSeg], obstacles := [probeObstacle], obstacleSpawnTimer := 0,
    nextObstacleDelay := 1200, score := 0, bestScore := 0, roundStartTime := 0,
    lastHudScore := -1, gameOver := false, introOverlayActive := false,
    storage := .unavailable,
    hud := { gameOver := false, score := 0, bestScore := 0 } }

/-- Probe state with no obstacles: a frame on it stays in play. -/
def calmState : GameState := { probeState with obstacles := [] }

/-- Probe state already frozen at game over. -/
def probeFrozen : GameState := { probeState with gameOver := true }

/-! ### Helper lemmas -/

theorem ite_lt_max (a b : ℚ) : (if a < b then b else a) = max a b := by
  rcases le_or_lt b a with hba | hab
  · rw [if_neg (not_lt.mpr hba), max_eq_left hba]
  · rw [if_pos hab, max_eq_right hab.le]

theorem chainFollow_length (p : Segment) (l : List Segment) :
    (chainFollow p l).length = l.length := by
  induction l generalizing p with
  | nil => rfl
  | cons c rest ih => simp [chainFollow, ih]

theorem chainFollow_getElem_zero (p : Segment) (l : List Segment) :
    (chainFollow p l)[0]? = l[0]?.map (easeToward p.x p.y) := by
  cases l <;> simp [chainFollow]

theorem chainFollow_getElem_succ (l : List Segment) (p : Segment) (i : ℕ) :
    (chainFollow p l)[i + 1]? =
      ((chainFollow p l)[i]?).bind fun q => (l[i + 1]?).map (easeToward q.x q.y) := by
  induction l generalizing p i with
  | nil => simp [chainFollow]
  | cons c rest ih =>
    cases i with
    | zero =>
      simp [chainFollow, chainFollow_getElem_zero]
    | succ j =>
      simp only [chainFollow, List.getElem?_cons_succ]
      exact ih (easeToward p.x p.y c) j

theorem obsStep_frozen (head : Option Segment) (height : ℚ) (o : Obstacle)
    (st : LoopSt) (hgo : st.gameOver = true) :
    obsStep head height o st = { st with kept := o :: st.kept } := by
  simp [obsStep, hgo]

theorem obsStep_playing_hit (head : Option Segment) (height : ℚ) (o : Obstacle)
    (st : LoopSt) (hgo : st.gameOver = false)
    (hh : hitTest head (moveObstacle o) = true) :
    obsStep head height o st =
      { kept := moveObstacle o :: st.kept, gameOver := true,
        score := normalizeScore st.score,
        bestScore := max st.bestScore (normalizeScore st.score),
        storage :=
          if st.bestScore < normalizeScore st.score then
            writeSessionBest (normalizeScore st.score) st.storage
          else st.storage,
        hud := { gameOver := true, score := normalizeScore st.score,
                 bestScore :=
                   normalizeScore (max st.bestScore (normalizeScore st.score)) } } := by
  simp only [obsStep, hgo, Bool.false_eq_true, if_false, hh, if_true, gt_iff_lt]
  rw [ite_lt_max]
  by_cases hlt : st.bestScore < normalizeScore st.score
  · simp [hlt, max_eq_right hlt.le]
  · simp [hlt, max_eq_left (not_lt.mp hlt)]

theorem obsStep_playing_miss (head : Option Segment) (height : ℚ) (o : Obstacle)
    (st : LoopSt) (hgo : st.gameOver = false)
    (hh : hitTest head (moveObstacle o) = false) :
    obsStep head height o st =
      if pastBottom height (moveObstacle o) then st
      else { st with kept := moveObstacle o :: st.kept } := by
  simp [obsStep, hgo, hh]

theorem obstacleLoop_frozen (head : Option Segment) (height : ℚ)
    (l : List Obstacle) (st : LoopSt) (hgo : st.gameOver = true) :
    obstacleLoop head height l st = { st with kept := l ++ st.kept } := by
  induction l with
  | nil => simp [obstacleLoop]
  | cons o rest ih =>
    rw [obstacleLoop, ih]
    simp [obsStep, hgo]

theorem obstacleLoop_spec (head : Option Segment) (height : ℚ)
    (l : List Obstacle) (st : LoopSt) (hgo : st.gameOver = false) :
    ((obstacleLoop head height l st).gameOver = false →
      (obstacleLoop head height l st).score = st.score ∧
      (obstacleLoop head height l st).bestScore = st.bestScore ∧
      (obstacleLoop head height l st).storage = st.storage ∧
      (obstacleLoop head height l st).hud = st.hud) ∧
    ((obstacleLoop head height l st).gameOver = true →
      (obstacleLoop head height l st).score = normalizeScore st.score ∧
      (obstacleLoop head height l st).bestScore =
        max st.bestScore (normalizeScore st.score) ∧
      (obstacleLoop head height l st).storage =
        (if st.bestScore < normalizeScore st.score then
          writeSessionBest (normalizeScore st.score) st.storage
        else st.storage) ∧
      (obstacleLoop head height l st).hud =
        { gameOver := true, score := normalizeScore st.score,
          bestScore :=
            normalizeScore (max st.bestScore (normalizeScore st.score)) }) := by
  induction l with
  | nil =>
    constructor
    · intro _; exact ⟨rfl, rfl, rfl, rfl⟩
    · intro hc
      rw [show obstacleLoop head height [] st = st from rfl] at hc
      rw [hgo] at hc
      cases hc
  | cons o rest ih =>
    rw [obstacleLoop]
    rcases hm : (obstacleLoop head height rest st).gameOver with _ | _
    · obtain ⟨hsc, hbs, hst, hhud⟩ := ih.1 hm
      rcases hh : hitTest head (moveObstacle o) with _ | _
      · rw [obsStep_playing_miss _ _ _ _ hm hh]
        rcases hpb : pastBottom height (moveObstacle o) with _ | _
        · constructor
          · intro _
            simp [hpb, hsc, hbs, hst, hhud]
          · intro hc
            simp [hpb, hm] at hc
        · constructor
          · intro _
            simp [hpb, hsc, hbs, hst, hhud]
          · intro hc
            simp [hpb, hm] at hc
      · rw [obsStep_playing_hit _ _ _ _ hm hh]
        constructor
        · intro hc; cases hc
        · intro _
          refine ⟨by rw [hsc], by rw [hsc, hbs], ?_, ?_⟩
          · rw [hsc, hbs, hst]
          · rw [hsc, hbs]
    · obtain ⟨hsc, hbs, hst, hhud⟩ := ih.2 hm
      rw [obsStep_frozen _ _ _ _ hm]
      constructor
      · intro hc
        rw [show ({ obstacleLoop head height rest st with
            kept := o :: (obstacleLoop head height rest st).kept } : LoopSt).gameOver =
            (obstacleLoop head height rest st).gameOver from rfl, hm] at hc
        cases hc
      · intro _
        exact ⟨hsc, hbs, hst, hhud⟩

theorem spawnPhase_fields (dt d : ℚ) (r : SpawnRand) (img : Bool)
    (s : GameState) :
    (spawnPhase dt d r img s).gameOver = s.gameOver ∧
    (spawnPhase dt d r img s).score = s.score ∧
    (spawnPhase dt d r img s).bestScore = s.bestScore ∧
    (spawnPhase dt d r img s).storage = s.storage ∧
    (spawnPhase dt d r img s).hud = s.hud ∧
    (spawnPhase dt d r img s).segments = s.segments ∧
    (spawnPhase dt d r img s).introOverlayActive = s.introOverlayActive ∧
    (spawnPhase dt d r img s).roundStartTime = s.roundStartTime ∧
    (spawnPhase dt d r img s).lastHudScore = s.lastHudScore := by
  unfold spawnPhase
  split
  · simp
  · dsimp only
    split <;> simp

theorem spawnPhase_frozen (dt d : ℚ) (r : SpawnRand) (img : Bool)
    (s : GameState) (hgo : s.gameOver = true) :
    spawnPhase dt d r img s = s := by
  simp [spawnPhase, hgo]

@[simp] theorem loopInit_gameOver (s : GameState) : (loopInit s).gameOver = s.gameOver := rfl

@[simp] theorem loopInit_score (s : GameState) : (loopInit s).score = s.score := rfl

@[simp] theorem loopInit_bestScore (s : GameState) : (loopInit s).bestScore = s.bestScore := rfl

@[simp] theorem loopInit_storage (s : GameState) : (loopInit s).storage = s.storage := rfl

@[simp] theorem loopInit_hud (s : GameState) : (loopInit s).hud = s.hud := rfl

@[simp] theorem applyLoop_gameOver (res : LoopSt) (s : GameState) :
    (applyLoop res s).gameOver = res.gameOver := rfl

@[simp] theorem applyLoop_score (res : LoopSt) (s : GameState) :
    (applyLoop res s).score = res.score := rfl

@[simp] theorem applyLoop_bestScore (res : LoopSt) (s : GameState) :
    (applyLoop res s).bestScore = res.bestScore := rfl

@[simp] theorem applyLoop_storage (res : LoopSt) (s : GameState) :
    (applyLoop res s).storage = res.storage := rfl

@[simp] theorem applyLoop_hud (res : LoopSt) (s : GameState) :
    (applyLoop res s).hud = res.hud := rfl

@[simp] theorem applyLoop_obstacles (res : LoopSt) (s : GameState) :
    (applyLoop res s).obstacles = res.kept := rfl

@[simp] theorem applyLoop_segments (res : LoopSt) (s : GameState) :
    (applyLoop res s).segments = s.segments := rfl

@[simp] theorem applyLoop_intro (res : LoopSt) (s : GameState) :
    (applyLoop res s).introOverlayActive = s.introOverlayActive := rfl

@[simp] theorem applyLoop_roundStartTime (res : LoopSt) (s : GameState) :
    (applyLoop res s).roundStartTime = s.roundStartTime := rfl

theorem updateObstacles_frozen (dt : ℚ) (img : Bool) (d : ℚ) (r : SpawnRand)
    (h : ℚ) (s : GameState) (hgo : s.gameOver = true) :
    updateObstacles dt img d r h s = s := by
  unfold updateObstacles
  split
  · rfl
  · rw [spawnPhase_frozen _ _ _ _ _ hgo]
    rw [obstacleLoop_frozen _ _ _ _ (show (loopInit s).gameOver = true from hgo)]
    cases s
    simp [applyLoop, loopInit]

theorem updateObstacles_spec (dt : ℚ) (img : Bool) (d : ℚ) (r : SpawnRand)
    (h : ℚ) (s : GameState) (hgo : s.gameOver = false) :
    ((updateObstacles dt img d r h s).gameOver = false →
      (updateObstacles dt img d r h s).score = s.score ∧
      (updateObstacles dt img d r h s).bestScore = s.bestScore ∧
      (updateObstacles dt img d r h s).storage = s.storage ∧
      (updateObstacles dt img d r h s).hud = s.hud) ∧
    ((updateObstacles dt img d r h s).gameOver = true →
      (updateObstacles dt img d r h s).score = normalizeScore s.score ∧
      (updateObstacles dt img d r h s).bestScore =
        max s.bestScore (normalizeScore s.score) ∧
      (updateObstacles dt img d r h s).storage =
        (if s.bestScore < normalizeScore s.score then
          writeSessionBest (normalizeScore s.score) s.storage
        else s.storage) ∧
      (updateObstacles dt img d r h s).hud =
        { gameOver := true, score := normalizeScore s.score,
          bestScore :=
            normalizeScore (max s.bestScore (normalizeScore s.score)) }) := by
  unfold updateObstacles
  split
  · constructor
    · intro _; exact ⟨rfl, rfl, rfl, rfl⟩
    · intro hc; rw [hgo] at hc; cases hc
  · obtain ⟨hg, hsc, hbs, hst, hhud, -, -, -, -⟩ := spawnPhase_fields dt d r img s
    have hgo1 : (loopInit (spawnPhase dt d r img s)).gameOver = false := by
      show (spawnPhase dt d r img s).gameOver = false
      rw [hg, hgo]
    have hloop := obstacleLoop_spec (spawnPhase dt d r img s).segments.head? h
      (spawnPhase dt d r img s).obstacles (loopInit (spawnPhase dt d r img s)) hgo1
    simp only [loopInit_gameOver, loopInit_score, loopInit_bestScore,
      loopInit_storage, loopInit_hud] at hloop
    rw [hsc, hbs, hst, hhud] at hloop
    simp only [applyLoop_gameOver, applyLoop_score, applyLoop_bestScore,
      applyLoop_storage, applyLoop_hud]
    exact hloop

theorem updateObstacles_intro (dt : ℚ) (img : Bool) (d : ℚ) (r : SpawnRand)
    (h : ℚ) (s : GameState) (hintro : s.introOverlayActive = true) :
    updateObstacles dt img d r h s = s := by
  simp [updateObstacles, hintro]

theorem scoreUpdate_fields (now : ℚ) (s : GameState) :
    (scoreUpdate now s).score = max 0 ((now - s.roundStartTime) / 1000) ∧
    (scoreUpdate now s).gameOver = s.gameOver ∧
    (scoreUpdate now s).bestScore = s.bestScore ∧
    (scoreUpdate now s).storage = s.storage ∧
    (scoreUpdate now s).obstacles = s.obstacles ∧
    (scoreUpdate now s).segments = s.segments ∧
    (scoreUpdate now s).introOverlayActive = s.introOverlayActive ∧
    (scoreUpdate now s).roundStartTime = s.roundStartTime := by
  unfold scoreUpdate
  dsimp only
  split <;> simp

theorem drawFrame_frozen (now dt : ℚ) (img : Bool) (d : ℚ) (r : SpawnRand)
    (h tx ty : ℚ) (s : GameState) (hgo : s.gameOver = true) :
    drawFrame now dt img d r h tx ty s = s := by
  unfold drawFrame
  dsimp only
  rw [if_pos hgo, updateObstacles_frozen dt img d r h s hgo]
  simp [hgo]

theorem drawFrame_playing_eq (now dt : ℚ) (img : Bool) (d : ℚ) (r : SpawnRand)
    (h tx ty : ℚ) (s : GameState) (hgo : s.gameOver = false) :
    drawFrame now dt img d r h tx ty s =
      (if (updateObstacles dt img d r h (scoreUpdate now s)).segments.isEmpty then
        updateObstacles dt img d r h (scoreUpdate now s)
      else if (updateObstacles dt img d r h (scoreUpdate now s)).gameOver then
        updateObstacles dt img d r h (scoreUpdate now s)
      else { updateObstacles dt img d r h (scoreUpdate now s) with
             segments := updateSegments tx ty
               (updateObstacles dt img d r h (scoreUpdate now s)).segments }) := by
  unfold drawFrame
  dsimp only
  rw [if_neg (show ¬(s.gameOver = true) by rw [hgo]; exact Bool.false_ne_true)]

theorem drawFrame_playing_proj (now dt : ℚ) (img : Bool) (d : ℚ)
    (r : SpawnRand) (h tx ty : ℚ) (s : GameState) (hgo : s.gameOver = false) :
    (drawFrame now dt img d r h tx ty s).score =
      (updateObstacles dt img d r h (scoreUpdate now s)).score ∧
    (drawFrame now dt img d r h tx ty s).gameOver =
      (updateObstacles dt img d r h (scoreUpdate now s)).gameOver := by
  rw [drawFrame_playing_eq now dt img d r h tx ty s hgo]
  split
  · exact ⟨rfl, rfl⟩
  · split
    · exact ⟨rfl, rfl⟩
    · exact ⟨rfl, rfl⟩

/-! ### C1 — best score at the Playing→GameOver transition -/

/-- C1: on the frame where `updateObstacles` raises the game-over flag,
the best score becomes `max bestScore (rounded score)`: if the rounded
score strictly exceeds the prior best it becomes the new best and is
written to storage, otherwise best score and storage are untouched; and
immediately after the transition `bestScore ≥ score`. -/
theorem bestScore_max_at_transition (dt : ℚ) (img : Bool) (d : ℚ)
    (r : SpawnRand) (h : ℚ) (s : GameState) (hgo : s.gameOver = false)
    (htr : (updateObstacles dt img d r h s).gameOver = true) :
    (updateObstacles dt img d r h s).bestScore =
      max s.bestScore (normalizeScore s.score) ∧
    (updateObstacles dt img d r h s).score = normalizeScore s.score ∧
    (updateObstacles dt img d r h s).score ≤
      (updateObstacles dt img d r h s).bestScore ∧
    (s.bestScore < normalizeScore s.score →
      (updateObstacles dt img d r h s).bestScore = normalizeScore s.score ∧
      (updateObstacles dt img d r h s).storage =
        writeSessionBest (normalizeScore s.score) s.storage) ∧
    (¬s.bestScore < normalizeScore s.score →
      (updateObstacles dt img d r h s).bestScore = s.bestScore ∧
      (updateObstacles dt img d r h s).storage = s.storage) := by
  obtain ⟨hsc, hbs, hst, -⟩ := (updateObstacles_spec dt img d r h s hgo).2 htr
  refine ⟨hbs, hsc, ?_, ?_, ?_⟩
  · rw [hsc, hbs]
    exact le_max_right _ _
  · intro hlt
    rw [hbs, max_eq_right hlt.le, hst, if_pos hlt]
    exact ⟨rfl, rfl⟩
  · intro hlt
    rw [hbs, max_eq_left (not_lt.mp hlt), hst, if_neg hlt]
    exact ⟨rfl, rfl⟩

/-- C1 witness: the probe frame ends the round at score 0 with best 0; the
best stays 0 (the max) and the storage cell is untouched. -/
theorem bestScore_max_at_transition_witness :
    (updateObstacles 0 true 1200 ⟨40, 0, 2, 0⟩ 600 probeState).bestScore =
      max 0 (normalizeScore 0) ∧
    (updateObstacles 0 true 1200 ⟨40, 0, 2, 0⟩ 600 probeState).score =
      normalizeScore 0 ∧
    (updateObstacles 0 true 1200 ⟨40, 0, 2, 0⟩ 600 probeState).score ≤
      (updateObstacles 0 true 1200 ⟨40, 0, 2, 0⟩ 600 probeState).bestScore ∧
    (updateObstacles 0 true 1200 ⟨40, 0, 2, 0⟩ 600 probeState).bestScore = 0 ∧
    (updateObstacles 0 true 1200 ⟨40, 0, 2, 0⟩ 600 probeState).storage =
      StorageState.unavailable := by
  have htr : (updateObstacles 0 true 1200 ⟨40, 0, 2, 0⟩ 600 probeState).gameOver = true := by
    norm_num [updateObstacles, probeState, spawnPhase, obstacleLoop, obsStep,
      moveObstacle, hitTest, collides, probeObstacle, probeSeg, spawnObstacle,
      normalizeScore, pastBottom, loopInit, applyLoop]
  have hmain := bestScore_max_at_transition 0 true 1200 ⟨40, 0, 2, 0⟩ 600
    probeState rfl htr
  have hnn : ¬(probeState.bestScore < normalizeScore probeState.score) := by
    norm_num [probeState, normalizeScore]
  obtain ⟨h1, h2, h3, -, h5⟩ := hmain
  obtain ⟨h5a, h5b⟩ := h5 hnn
  exact ⟨h1, h2, h3, h5a, h5b⟩

/-! ### C4 — collision test and single transition -/

/-- C4: while not game over, one loop iteration flags game over exactly
when the moved obstacle collides with the chain head; the collision test
is the Euclidean distance against `80 + size * 0.45` (the squared form of
`collides` is equivalent to the square-root form for nonnegative sizes);
once the flag is up an iteration tests nothing, moves nothing and keeps
the obstacle, and a whole frame leaves a flagged round flagged, so at most
one transition happens per round. -/
theorem collision_iff_distance (head : Option Segment) (hd : Segment)
    (height : ℚ) (o : Obstacle) (st : LoopSt) (now dt : ℚ) (img : Bool)
    (d : ℚ) (r : SpawnRand) (h tx ty : ℚ) (s : GameState) :
    (st.gameOver = false →
      ((obsStep (some hd) height o st).gameOver = true ↔
        collides hd (moveObstacle o) = true)) ∧
    (0 ≤ o.size →
      (collides hd o = true ↔
        Real.sqrt (((hd.x : ℝ) - (o.x : ℝ)) ^ 2 + ((hd.y : ℝ) - (o.y : ℝ)) ^ 2) <
          80 + (o.size : ℝ) * (45 / 100))) ∧
    (st.gameOver = true →
      obsStep head height o st = { st with kept := o :: st.kept }) ∧
    (s.gameOver = true → (drawFrame now dt img d r h tx ty s).gameOver = true) := by
  refine ⟨?_, ?_, ?_, ?_⟩
  · intro hgo
    rcases hh : collides hd (moveObstacle o) with _ | _
    · have hgoeq : ((if pastBottom height (moveObstacle o) then st
          else { st with kept := moveObstacle o :: st.kept } : LoopSt)).gameOver =
          st.gameOver := by
        split
        · rfl
        · rfl
      rw [obsStep_playing_miss (some hd) height o st hgo hh, hgoeq, hgo]
    · rw [obsStep_playing_hit (some hd) height o st hgo hh]
  · intro hsize
    have hpos : (0 : ℝ) < 80 + (o.size : ℝ) * (45 / 100) := by
      have h0 : (0 : ℝ) ≤ (o.size : ℝ) := by exact_mod_cast hsize
      nlinarith
    rw [collides, decide_eq_true_iff, Real.sqrt_lt' hpos]
    constructor
    · intro hq
      have hr : (((hd.x - o.x) ^ 2 + (hd.y - o.y) ^ 2 : ℚ) : ℝ) <
          (((80 + o.size * (45 / 100)) ^ 2 : ℚ) : ℝ) := by exact_mod_cast hq
      push_cast at hr
      linarith [hr]
    · intro hr
      have hq : (((hd.x - o.x) ^ 2 + (hd.y - o.y) ^ 2 : ℚ) : ℝ) <
          (((80 + o.size * (45 / 100)) ^ 2 : ℚ) : ℝ) := by push_cast; linarith [hr]
      exact_mod_cast hq
  · intro hgo
    exact obsStep_frozen head height o st hgo
  · intro hgo
    rw [drawFrame_frozen now dt img d r h tx ty s hgo]
    exact hgo

/-- C4 witness: the probe obstacle ends the round (it overlaps the head),
and the frozen probe state stays frozen across a frame. -/
theorem collision_iff_distance_witness :
    ((obsStep (some probeSeg) 600 probeObstacle (loopInit probeState)).gameOver = true ↔
      collides probeSeg (moveObstacle probeObstacle) = true) ∧
    (collides probeSeg probeObstacle = true ↔
      Real.sqrt (((probeSeg.x : ℝ) - (probeObstacle.x : ℝ)) ^ 2 +
          ((probeSeg.y : ℝ) - (probeObstacle.y : ℝ)) ^ 2) <
        80 + (probeObstacle.size : ℝ) * (45 / 100)) ∧
    obsStep (some probeSeg) 600 probeObstacle
        { loopInit probeState with gameOver := true } =
      { { loopInit probeState with gameOver := true } with
        kept := probeObstacle :: (loopInit probeState).kept } ∧
    (drawFrame 0 0 true 1200 ⟨40, 0, 2, 0⟩ 600 0 0
        { probeState with gameOver := true }).gameOver = true := by
  obtain ⟨h1, h2, h3, h4⟩ := collision_iff_distance (some probeSeg) probeSeg 600
    probeObstacle (loopInit probeState) 0 0 true 1200 ⟨40, 0, 2, 0⟩ 600 0 0
    { probeState with gameOver := true }
  refine ⟨h1 rfl, h2 (by norm_num [probeObstacle]), ?_, h4 rfl⟩
  obtain ⟨-, -, h3', -⟩ := collision_iff_distance (some probeSeg) probeSeg 600
    probeObstacle { loopInit probeState with gameOver := true } 0 0 true 1200
    ⟨40, 0, 2, 0⟩ 600 0 0 probeState
  exact h3' rfl

/-! ### C5 — obstacle removal rule -/

/-- C5 counterexample: removal is not characterized by the bottom edge
passing the viewport by any fixed margin.  At viewport height 600, the
obstacles `(y, size) = (695, 40)` and `(675, 80)` have the same bottom
edge `715`, yet the removal test accepts the first (top edge `675 > 650`)
and rejects the second (top edge `635 ≤ 650`). -/
theorem removal_margin_counterexample :
    ¬∃ m : ℚ, ∀ o : Obstacle,
      pastBottom 600 o = true ↔ o.y + o.size / 2 > 600 + m := by
  rintro ⟨m, hm⟩
  have h1 : (695 : ℚ) + 40 / 2 > 600 + m :=
    (hm { x := 0, y := 695, speed := 0, size := 40, drift := 0 }).mp
      (by norm_num [pastBottom])
  have h2 : ¬((675 : ℚ) + 80 / 2 > 600 + m) := by
    intro hgt
    have hpb := (hm { x := 0, y := 675, speed := 0, size := 80, drift := 0 }).mpr hgt
    norm_num [pastBottom] at hpb
  apply h2
  linarith

/-- C5 amended: while not game over (and no collision on that obstacle),
an obstacle is removed exactly when its top edge `y - size/2` has passed
more than 50 px below the viewport — equivalently, when its bottom edge
has passed below the viewport by `50 + size`, a margin depending on its
own size, not a fixed one; while game over, no obstacle is ever removed. -/
theorem removal_iff_top_edge_past (head : Option Segment) (height : ℚ)
    (o : Obstacle) (st : LoopSt) (dt : ℚ) (img : Bool) (d : ℚ)
    (r : SpawnRand) (s : GameState) :
    (st.gameOver = false → hitTest head (moveObstacle o) = false →
      (obsStep head height o st).kept =
        (if pastBottom height (moveObstacle o) then st.kept
         else moveObstacle o :: st.kept)) ∧
    (pastBottom height o = true ↔ o.y - o.size / 2 > height + 50) ∧
    (pastBottom height o = true ↔ o.y + o.size / 2 > height + 50 + o.size) ∧
    (st.gameOver = true → (obsStep head height o st).kept = o :: st.kept) ∧
    (s.gameOver = true →
      (updateObstacles dt img d r height s).obstacles = s.obstacles) := by
  refine ⟨?_, ?_, ?_, ?_, ?_⟩
  · intro hgo hh
    rw [obsStep_playing_miss head height o st hgo hh]
    split
    · rfl
    · rfl
  · rw [pastBottom, decide_eq_true_iff]
  · rw [pastBottom, decide_eq_true_iff]
    constructor
    · intro hgt; linarith
    · intro hgt; linarith
  · intro hgo
    rw [obsStep_frozen head height o st hgo]
  · intro hgo
    rw [updateObstacles_frozen dt img d r height s hgo]

/-- C5 witness: the probe obstacle, far above the removal line, is kept
after a missed test; a frozen state keeps its obstacle list. -/
theorem removal_iff_top_edge_past_witness :
    (obsStep none 600 probeObstacle (loopInit probeState)).kept =
      (if pastBottom 600 (moveObstacle probeObstacle) then
        (loopInit probeState).kept
      else moveObstacle probeObstacle :: (loopInit probeState).kept) ∧
    (pastBottom 600 probeObstacle = true ↔
      probeObstacle.y - probeObstacle.size / 2 > 600 + 50) ∧
    (obsStep none 600 probeObstacle
      { loopInit probeState with gameOver := true }).kept =
      probeObstacle :: (loopInit probeState).kept ∧
    (updateObstacles 0 true 1200 ⟨40, 0, 2, 0⟩ 600
      { probeState with gameOver := true }).obstacles =
      ({ probeState with gameOver := true } : GameState).obstacles := by
  obtain ⟨h1, h2, -, -, -⟩ := removal_iff_top_edge_past none 600 probeObstacle
    (loopInit probeState) 0 true 1200 ⟨40, 0, 2, 0⟩ probeState
  obtain ⟨-, -, -, h4, h5⟩ := removal_iff_top_edge_past none 600 probeObstacle
    { loopInit probeState with gameOver := true } 0 true 1200 ⟨40, 0, 2, 0⟩
    { probeState with gameOver := true }
  exact ⟨h1 rfl rfl, h2, h4 rfl, h5 rfl⟩

/-! ### C6 — intro overlay empties and freezes the obstacle field -/

/-- C6: entering the intro clears the obstacle collection, and while the
intro overlay is active `updateObstacles` is the identity (no spawning,
movement, collision or removal), so a whole frame leaves the obstacle
collection unchanged — in particular empty collections stay empty for the
whole intro. -/
theorem intro_obstacles_empty (dint dt : ℚ) (img : Bool) (d : ℚ)
    (r : SpawnRand) (h now tx ty : ℚ) (s : GameState) :
    (setIntroOverlayState true dint s).obstacles = [] ∧
    (s.introOverlayActive = true → updateObstacles dt img d r h s = s) ∧
    (s.introOverlayActive = true →
      (drawFrame now dt img d r h tx ty s).obstacles = s.obstacles) := by
  obtain ⟨-, -, -, -, hobs1, -, hintro1, -⟩ := scoreUpdate_fields now s
  refine ⟨by simp [setIntroOverlayState], ?_, ?_⟩
  · intro hintro
    exact updateObstacles_intro dt img d r h s hintro
  · intro hintro
    unfold drawFrame
    dsimp only
    rcases hgo : s.gameOver with _ | _
    · rw [if_neg Bool.false_ne_true]
      rw [updateObstacles_intro dt img d r h _ (by rw [hintro1]; exact hintro)]
      split
      · exact hobs1
      · split
        · exact hobs1
        · exact hobs1
    · rw [if_pos rfl, updateObstacles_intro dt img d r h s hintro]
      simp [hgo]

/-- C6 witness at the intro probe state. -/
theorem intro_obstacles_empty_witness :
    (setIntroOverlayState true 1200 probeState).obstacles = [] ∧
    updateObstacles 0 true 1200 ⟨40, 0, 2, 0⟩ 600
        { probeState with introOverlayActive := true, obstacles := [] } =
      { probeState with introOverlayActive := true, obstacles := [] } ∧
    (drawFrame 0 0 true 1200 ⟨40, 0, 2, 0⟩ 600 0 0
        { probeState with introOverlayActive := true, obstacles := [] }).obstacles =
      ({ probeState with introOverlayActive := true, obstacles := [] } :
        GameState).obstacles := by
  obtain ⟨h1, h2, h3⟩ := intro_obstacles_empty 1200 0 true 1200 ⟨40, 0, 2, 0⟩
    600 0 0 0 { probeState with introOverlayActive := true, obstacles := [] }
  refine ⟨?_, h2 rfl, h3 rfl⟩
  obtain ⟨h1', -, -⟩ := intro_obstacles_empty 1200 0 true 1200 ⟨40, 0, 2, 0⟩
    600 0 0 0 probeState
  exact h1'

/-! ### C3 — follower-chain update rule -/

/-- C3 counterexample: the claim says each segment eases toward the
position its predecessor had *before* this frame's update
(`updateSegmentsSpecPrev`).  The code mutates the array in place, so the
tail follows already-updated positions, and the two rules disagree on the
very first frame after a reset once the head moves. -/
theorem chain_prev_position_counterexample :
    updateSegments 0 0 (initSegments 800 600) ≠
      updateSegmentsSpecPrev 0 0 (initSegments 800 600) := by
  norm_num [updateSegments, updateSegmentsSpecPrev, initSegments, numSegments,
    chainFollow, chainFollowPrev, easeToward, List.range_succ]

/-- C3 amended: on each frame's chain update, segment 0 eases toward the
target by its easing factor, and every segment `i ≥ 1` eases toward the
position its predecessor already received earlier in the same frame's
update (in-place sequential easing), the chain length being preserved. -/
theorem chain_eases_toward_updated_predecessor (tx ty : ℚ)
    (segs : List Segment) (i : ℕ) :
    (updateSegments tx ty segs).length = segs.length ∧
    (updateSegments tx ty segs)[0]? = segs[0]?.map (easeToward tx ty) ∧
    (updateSegments tx ty segs)[i + 1]? =
      ((updateSegments tx ty segs)[i]?).bind fun p =>
        (segs[i + 1]?).map (easeToward p.x p.y) := by
  refine ⟨?_, ?_, ?_⟩
  · cases segs with
    | nil => rfl
    | cons s0 rest => simp [updateSegments, chainFollow_length]
  · cases segs <;> simp [updateSegments]
  · cases segs with
    | nil => simp [updateSegments]
    | cons s0 rest =>
      cases i with
      | zero => simp [updateSegments, chainFollow_getElem_zero]
      | succ j =>
        simp only [updateSegments, List.getElem?_cons_succ]
        exact chainFollow_getElem_succ rest (easeToward tx ty s0) j

/-! ### C7 / C10 — resetGame -/

/-- C7: a retry while in game over produces a fresh playing state: score 0,
no obstacles, spawn timer 0 with the fresh random delay (drawn in
[900, 1600]), all `numSegments` segments at the canvas center; repeating
the retry yields the same fresh state again (the reset ignores every
round-dependent field of its input). -/
theorem retry_fresh_playing_state (w h d now d2 now2 : ℚ) (s : GameState)
    (h900 : 900 ≤ d) (h1600 : d < 1600) :
    (resetGame w h d now s).gameOver = false ∧
    (resetGame w h d now s).score = 0 ∧
    (resetGame w h d now s).obstacles = [] ∧
    (resetGame w h d now s).obstacleSpawnTimer = 0 ∧
    900 ≤ (resetGame w h d now s).nextObstacleDelay ∧
    (resetGame w h d now s).nextObstacleDelay ≤ 1600 ∧
    (resetGame w h d now s).segments.length = numSegments ∧
    (∀ seg ∈ (resetGame w h d now s).segments, seg.x = w / 2 ∧ seg.y = h / 2) ∧
    resetGame w h d now (resetGame w h d2 now2 s) = resetGame w h d now s := by
  refine ⟨rfl, rfl, rfl, rfl, h900, h1600.le, ?_, ?_, ?_⟩
  · show (initSegments w h).length = numSegments
    unfold initSegments
    rw [List.length_map, List.length_range]
  · intro seg hseg
    simp only [resetGame, initSegments, List.mem_map, List.mem_range] at hseg
    obtain ⟨i, _, rfl⟩ := hseg
    exact ⟨rfl, rfl⟩
  · cases s; rfl

/-- C7 witness at a concrete delay and state. -/
theorem retry_fresh_playing_state_witness :
    (resetGame 800 600 1000 5000 probeState).score = 0 ∧
    (resetGame 800 600 1000 5000 probeState).obstacles = [] ∧
    (resetGame 800 600 1000 5000 probeState).segments.length = numSegments ∧
    resetGame 800 600 1000 5000 (resetGame 800 600 1500 9000 probeState) =
      resetGame 800 600 1000 5000 probeState := by
  obtain ⟨-, h1, h2, -, -, -, h3, -, h4⟩ :=
    retry_fresh_playing_state 800 600 1000 5000 1500 9000 probeState
      (by norm_num) (by norm_num)
  exact ⟨h1, h2, h3, h4⟩

/-- C10: `resetGame` never touches the best score or the persisted cell:
both are exactly those of the input state, while the round fields are
re-initialized. -/
theorem resetGame_preserves_bestScore (w h d now : ℚ) (s : GameState) :
    (resetGame w h d now s).bestScore = s.bestScore ∧
    (resetGame w h d now s).storage = s.storage ∧
    (resetGame w h d now s).score = 0 ∧
    (resetGame w h d now s).obstacleSpawnTimer = 0 ∧
    (resetGame w h d now s).nextObstacleDelay = d ∧
    (resetGame w h d now s).obstacles = [] ∧
    (resetGame w h d now s).gameOver = false ∧
    (resetGame w h d now s).roundStartTime = now ∧
    (resetGame w h d now s).lastHudScore = -1 ∧
    (resetGame w h d now s).segments = initSegments w h :=
  ⟨rfl, rfl, rfl, rfl, rfl, rfl, rfl, rfl, rfl, rfl⟩

/-! ### C8 — missing obstacle image -/

/-- C8 counterexample: the claim says that with the obstacle image missing
only drawing degrades while collision and the ability to reach game over
continue unaffected.  At the probe state (an obstacle overlapping the
head), the frame with the image loaded flags game over, while the
identical frame with the image missing leaves the round running: gameplay
is affected, not just drawing. -/
theorem missing_obstacle_image_blocks_gameplay :
    (updateObstacles 0 false 1200 ⟨40, 0, 2, 0⟩ 600 probeState).gameOver = false ∧
    (updateObstacles 0 true 1200 ⟨40, 0, 2, 0⟩ 600 probeState).gameOver = true := by
  constructor
  · norm_num [updateObstacles, probeState]
  · norm_num [updateObstacles, probeState, spawnPhase, obstacleLoop, obsStep,
      moveObstacle, hitTest, collides, probeObstacle, probeSeg, spawnObstacle,
      normalizeScore, pastBottom]

/-- C8 amended: when the obstacle image failed to load, the whole obstacle
update is skipped: no spawning, no movement, no collision, and the game
over flag cannot be raised — `updateObstacles` leaves the state untouched
(and `spawnObstacle` pushes nothing). -/
theorem missing_obstacle_image_skips_update (dt d : ℚ) (r : SpawnRand)
    (h : ℚ) (s : GameState) (obs : List Obstacle) :
    updateObstacles dt false d r h s = s ∧ spawnObstacle false r obs = obs := by
  constructor
  · simp [updateObstacles]
  · simp [spawnObstacle]

/-! ### C2 — score dynamics -/

/-- C2: while playing, the frame sets the score to the elapsed seconds
since round start (clamped at 0), so it is non-decreasing in the clock;
on the frame that flags game over the score freezes at the rounded
(one-decimal) terminal value; and once game over, a frame changes nothing
at all, so the score stays frozen until the next reset. -/
theorem score_elapsed_monotone_frozen (now now2 dt : ℚ) (img : Bool) (d : ℚ)
    (r : SpawnRand) (h tx ty : ℚ) (s : GameState) :
    (s.gameOver = false → (drawFrame now dt img d r h tx ty s).gameOver = false →
      (drawFrame now dt img d r h tx ty s).score =
        max 0 ((now - s.roundStartTime) / 1000)) ∧
    (s.gameOver = false → now ≤ now2 →
      (drawFrame now dt img d r h tx ty s).gameOver = false →
      (drawFrame now2 dt img d r h tx ty s).gameOver = false →
      (drawFrame now dt img d r h tx ty s).score ≤
        (drawFrame now2 dt img d r h tx ty s).score) ∧
    (s.gameOver = false → (drawFrame now dt img d r h tx ty s).gameOver = true →
      (drawFrame now dt img d r h tx ty s).score =
        normalizeScore (max 0 ((now - s.roundStartTime) / 1000))) ∧
    (s.gameOver = true → drawFrame now dt img d r h tx ty s = s) := by
  have key : ∀ n : ℚ, s.gameOver = false →
      ((drawFrame n dt img d r h tx ty s).gameOver = false →
        (drawFrame n dt img d r h tx ty s).score =
          max 0 ((n - s.roundStartTime) / 1000)) ∧
      ((drawFrame n dt img d r h tx ty s).gameOver = true →
        (drawFrame n dt img d r h tx ty s).score =
          normalizeScore (max 0 ((n - s.roundStartTime) / 1000))) := by
    intro n hgo
    obtain ⟨hscpr, hgopr⟩ := drawFrame_playing_proj n dt img d r h tx ty s hgo
    obtain ⟨hsc1, hgo1, -, -, -, -, -, -⟩ := scoreUpdate_fields n s
    have hgo1' : (scoreUpdate n s).gameOver = false := by rw [hgo1, hgo]
    have hspec := updateObstacles_spec dt img d r h (scoreUpdate n s) hgo1'
    constructor
    · intro hf
      rw [hgopr] at hf
      obtain ⟨hu, -, -, -⟩ := hspec.1 hf
      rw [hscpr, hu, hsc1]
    · intro ht
      rw [hgopr] at ht
      obtain ⟨hu, -, -, -⟩ := hspec.2 ht
      rw [hscpr, hu, hsc1]
  refine ⟨fun hgo => (key now hgo).1, ?_, fun hgo => (key now hgo).2, ?_⟩
  · intro hgo hle hf1 hf2
    rw [(key now hgo).1 hf1, (key now2 hgo).1 hf2]
    exact max_le_max le_rfl (by linarith)
  · intro hgo
    exact drawFrame_frozen now dt img d r h tx ty s hgo

/-- C2 witness: on the calm probe state a frame at clock 0 reports score
0 and a later frame reports at least as much; the probe frame freezes the
rounded score; the frozen probe state is left untouched. -/
theorem score_elapsed_monotone_frozen_witness :
    (drawFrame 0 0 true 1200 ⟨40, 0, 2, 0⟩ 600 0 0 calmState).score =
      max 0 ((0 - calmState.roundStartTime) / 1000) ∧
    (drawFrame 0 0 true 1200 ⟨40, 0, 2, 0⟩ 600 0 0 calmState).score ≤
      (drawFrame 1000 0 true 1200 ⟨40, 0, 2, 0⟩ 600 0 0 calmState).score ∧
    (drawFrame 0 0 true 1200 ⟨40, 0, 2, 0⟩ 600 0 0 probeState).score =
      normalizeScore (max 0 ((0 - probeState.roundStartTime) / 1000)) ∧
    drawFrame 0 0 true 1200 ⟨40, 0, 2, 0⟩ 600 0 0 probeFrozen = probeFrozen := by
  have hcalm0 : (drawFrame 0 0 true 1200 ⟨40, 0, 2, 0⟩ 600 0 0 calmState).gameOver
      = false := by
    rw [(drawFrame_playing_proj 0 0 true 1200 ⟨40, 0, 2, 0⟩ 600 0 0 calmState rfl).2]
    norm_num [scoreUpdate, updateObstacles, spawnPhase, obstacleLoop, loopInit,
      applyLoop, calmState, probeState, normalizeScore, round_eq]
  have hcalm1 : (drawFrame 1000 0 true 1200 ⟨40, 0, 2, 0⟩ 600 0 0 calmState).gameOver
      = false := by
    rw [(drawFrame_playing_proj 1000 0 true 1200 ⟨40, 0, 2, 0⟩ 600 0 0 calmState rfl).2]
    norm_num [scoreUpdate, updateObstacles, spawnPhase, obstacleLoop, loopInit,
      applyLoop, calmState, probeState, normalizeScore, round_eq]
  have hprobe : (drawFrame 0 0 true 1200 ⟨40, 0, 2, 0⟩ 600 0 0 probeState).gameOver
      = true := by
    rw [(drawFrame_playing_proj 0 0 true 1200 ⟨40, 0, 2, 0⟩ 600 0 0 probeState rfl).2]
    norm_num [scoreUpdate, updateObstacles, spawnPhase, obstacleLoop, obsStep,
      loopInit, applyLoop, probeState, probeSeg, probeObstacle, moveObstacle,
      hitTest, collides, spawnObstacle, pastBottom, normalizeScore, round_eq]
  obtain ⟨c1, c2, -, -⟩ := score_elapsed_monotone_frozen 0 1000 0 true 1200
    ⟨40, 0, 2, 0⟩ 600 0 0 calmState
  obtain ⟨-, -, p3, -⟩ := score_elapsed_monotone_frozen 0 0 0 true 1200
    ⟨40, 0, 2, 0⟩ 600 0 0 probeState
  obtain ⟨-, -, -, p4⟩ := score_elapsed_monotone_frozen 0 0 0 true 1200
    ⟨40, 0, 2, 0⟩ 600 0 0 probeFrozen
  exact ⟨c1 rfl hcalm0, c2 rfl (by norm_num) hcalm0 hcalm1, p3 rfl hprobe, p4 rfl⟩

/-! ### C9 — best-score persistence and degradation -/

/-- C9: the startup read of the persisted best defaults to 0 when storage
throws, when the cell is absent, and when the raw string is non-numeric;
a write against throwing storage leaves storage as it was; and on a
game-over transition with throwing storage the in-memory best score is
still folded to the max while gameplay state advances normally. -/
theorem persistence_read_defaults (parse : String → Option ℚ) (raw : String)
    (v dt : ℚ) (img : Bool) (d : ℚ) (r : SpawnRand) (h : ℚ) (s : GameState) :
    initialBestScore parse .unavailable = 0 ∧
    initialBestScore parse (.available .absent) = 0 ∧
    (parse raw = none → initialBestScore parse (.available (.raw raw)) = 0) ∧
    writeSessionBest v .unavailable = .unavailable ∧
    (s.gameOver = false → s.storage = .unavailable →
      (updateObstacles dt img d r h s).gameOver = true →
      (updateObstacles dt img d r h s).bestScore =
        max s.bestScore (normalizeScore s.score) ∧
      (updateObstacles dt img d r h s).storage = .unavailable) := by
  refine ⟨?_, ?_, ?_, rfl, ?_⟩
  · simp [initialBestScore, readSessionBest, normalizeScore]
  · simp [initialBestScore, readSessionBest, normalizeScore]
  · intro hparse
    simp [initialBestScore, readSessionBest, hparse, normalizeScore]
  · intro hgo hstor htr
    obtain ⟨-, hbs, hst, -⟩ := (updateObstacles_spec dt img d r h s hgo).2 htr
    refine ⟨hbs, ?_⟩
    rw [hst, hstor]
    split
    · rfl
    · rfl

/-- C9 witness: concrete defaults (a parse that always fails, an absent
cell, throwing storage) and the probe transition with throwing storage. -/
theorem persistence_read_defaults_witness :
    initialBestScore (fun _ => none) .unavailable = 0 ∧
    initialBestScore (fun _ => none) (.available .absent) = 0 ∧
    initialBestScore (fun _ => none) (.available (.raw default)) = 0 ∧
    writeSessionBest 3 .unavailable = .unavailable ∧
    (updateObstacles 0 true 1200 ⟨40, 0, 2, 0⟩ 600 probeState).bestScore =
      max probeState.bestScore (normalizeScore probeState.score) ∧
    (updateObstacles 0 true 1200 ⟨40, 0, 2, 0⟩ 600 probeState).storage =
      StorageState.unavailable := by
  have htr : (updateObstacles 0 true 1200 ⟨40, 0, 2, 0⟩ 600 probeState).gameOver
      = true := by
    norm_num [updateObstacles, probeState, spawnPhase, obstacleLoop, obsStep,
      moveObstacle, hitTest, collides, probeObstacle, probeSeg, spawnObstacle,
      normalizeScore, pastBottom, loopInit, applyLoop]
  obtain ⟨h1, h2, h3, h4, h5⟩ := persistence_read_defaults (fun _ => none)
    default 3 0 true 1200 ⟨40, 0, 2, 0⟩ 600 probeState
  obtain ⟨h5a, h5b⟩ := h5 rfl rfl htr
  exact ⟨h1, h2, h3 rfl, h4, h5a, h5b⟩

end SnakeGame
